import Mathlib

/-!
Verification of the calendar date-selection and navigation engine of the
oruga UI component library: the datepicker table-row logic (week numbers,
selectability policy, cell presentation flags, keyboard-driven focus
movement, event matching) and the datetimepicker value handling.

Modelling conventions for the JavaScript platform:
* a JS `Date` produced by the datepicker (always local midnight) is modelled
  by its civil calendar fields (`CalDate`) or, where the code mutates a date
  through `setDate`, by its day number (days since 1970-01-01, an `Int`);
* the model is timezone-free (no DST): `getTime` differences between two
  midnight dates are whole days, so `Math.round` in `getSetDayOfYear`
  vanishes;
* `new Date(y, m, d)` follows the ECMAScript `MakeDay` normalisation over
  the proleptic Gregorian calendar (the model idealises away the legacy
  remapping of two-digit years and float representation of numbers);
* JS `%` is truncating while Lean's `%` on `Int` is Euclidean; they are only
  used here on operands where both agree (nonnegative left operand, or a
  pure zero-test), as noted at each use;
* datetimes of the datetimepicker are seconds since the epoch (`Int`).
-/

namespace Oruga

/-- Leap year test from the source (`isLeapYear`): divisible by 4 and not by
100, or divisible by 400.  JS `%` agrees with Euclidean `%` in a zero test. -/
def isLeapYear (year : Int) : Bool :=
  (year % 4 == 0 && year % 100 != 0) || year % 400 == 0

/-- Number of days in the year, from the source (`daysInYear`). -/
def daysInYear (year : Int) : Int :=
  if isLeapYear year then 366 else 365

/-- Model helper: 1 for a leap year, 0 otherwise. -/
def leapFix (leap : Bool) : Int := if leap then 1 else 0

/-- Model helper: cumulative number of days before 0-based month `m` in a
year of the given leapness (proleptic Gregorian month lengths). -/
def preDays (leap : Bool) (m : Int) : Int :=
  if m ≤ 0 then 0
  else if m = 1 then 31
  else if m = 2 then 59 + leapFix leap
  else if m = 3 then 90 + leapFix leap
  else if m = 4 then 120 + leapFix leap
  else if m = 5 then 151 + leapFix leap
  else if m = 6 then 181 + leapFix leap
  else if m = 7 then 212 + leapFix leap
  else if m = 8 then 243 + leapFix leap
  else if m = 9 then 273 + leapFix leap
  else if m = 10 then 304 + leapFix leap
  else if m = 11 then 334 + leapFix leap
  else 365 + leapFix leap

/-- Model helper: number of days of 0-based month `m` in a year of the given
leapness. -/
def monthLength (leap : Bool) (m : Int) : Int :=
  if m = 0 then 31
  else if m = 1 then 28 + leapFix leap
  else if m = 2 then 31
  else if m = 3 then 30
  else if m = 4 then 31
  else if m = 5 then 30
  else if m = 6 then 31
  else if m = 7 then 31
  else if m = 8 then 30
  else if m = 9 then 31
  else if m = 10 then 30
  else if m = 11 then 31
  else 0

/-- Model helper: day number (days since 1970-01-01) of January 1 of `y` in
the proleptic Gregorian calendar.  `(y-1)/4 - (y-1)/100 + (y-1)/400 + 1`
counts the leap years in `[0, y)`; `/` is floor division (positive
divisors), correct for negative years as well. -/
def yearStart (y : Int) : Int :=
  365 * y + (y - 1) / 4 - (y - 1) / 100 + (y - 1) / 400 + 1 - 719528

/-- Model of the ECMAScript `MakeDay(y, m, d)` used by `new Date(y, m, d)`:
the day number of day `d` (1-based, arbitrary, may overflow) of 0-based
month `m` (arbitrary, overflow rolls the year) of year `y`. -/
def jsMakeDay (y m d : Int) : Int :=
  yearStart (y + m / 12) + preDays (isLeapYear (y + m / 12)) (m % 12) + (d - 1)

/-- A JS `Date` at local midnight, by its civil fields: `year` is
`getFullYear()`, `month0` is the 0-based `getMonth()`, `day` is
`getDate()`. -/
structure CalDate where
  year : Int
  month0 : Int
  day : Int
deriving DecidableEq, Repr

/-- Calendar fields that a real JS `Date` can report (months 0–11, days
within the month). -/
def ValidCalDate (t : CalDate) : Prop :=
  0 ≤ t.month0 ∧ t.month0 ≤ 11 ∧ 1 ≤ t.day ∧
    t.day ≤ monthLength (isLeapYear t.year) t.month0

instance (t : CalDate) : Decidable (ValidCalDate t) := by
  unfold ValidCalDate
  infer_instance

/-- Day number of a calendar date (its `getTime()` measured in days). -/
def toDays (t : CalDate) : Int := jsMakeDay t.year t.month0 t.day

/-- JS `getDay()` of a day number: 1970-01-01 was a Thursday (= 4); always
in `0..6` (ECMAScript `WeekDay` uses the nonnegative modulo). -/
def jsGetDay (z : Int) : Int := (z + 4) % 7

/-- JS `getDay()` of a calendar date. -/
def getDay (t : CalDate) : Int := jsGetDay (toDays t)

/-- Civil fields of a day number (inverse of `toDays`), by the standard
era/day-of-era decomposition of the proleptic Gregorian calendar. -/
def fromDays (z : Int) : CalDate :=
  let zz := z + 719468
  let era := zz / 146097
  let doe := (zz - era * 146097).toNat
  let yoe := (doe - doe / 1460 + doe / 36524 - doe / 146096) / 365
  let y : Int := (yoe : Int) + era * 400
  let doy := doe - (365 * yoe + yoe / 4 - yoe / 100)
  let mp := (5 * doy + 2) / 153
  let d : Int := (doy : Int) - (153 * (mp : Int) + 2) / 5 + 1
  let m1 : Int := if mp < 10 then (mp : Int) + 3 else (mp : Int) - 9
  { year := if m1 ≤ 2 then y + 1 else y, month0 := m1 - 1, day := d }

/-- JS `setDate(n)` applied to a `Date` holding day number `z`: keep the
date's current year and month, set the day of month to `n` (with
`MakeDay` normalisation). -/
def jsSetDate (z n : Int) : Int :=
  jsMakeDay (fromDays z).year (fromDays z).month0 n

/-- Source `firstWeekOffset(year, dow, doy)`: with `fwd = 7 + dow - doy`,
`firstJanuary = new Date(year, 0, fwd)` and
`fwdlw = (7 + firstJanuary.getDay() - dow) % 7`, returns
`-fwdlw + fwd - 1`.  The JS `%` operand `7 + getDay() - dow` is positive
for `dow ≤ 6`, where truncating and Euclidean `%` agree. -/
def firstWeekOffset (year dow doy : Int) : Int :=
  -((7 + jsGetDay (jsMakeDay year 0 (7 + dow - doy)) - dow) % 7) + (7 + dow - doy) - 1

/-- Numerator of the source `weeksInYear`:
`daysInYear(year) - weekOffset + weekOffsetNext`. -/
def weeksInYearNum (year dow doy : Int) : Int :=
  daysInYear year - firstWeekOffset year dow doy + firstWeekOffset (year + 1) dow doy

/-- Source `weeksInYear(year, dow, doy)`; the JS division by 7 is exact
(`weeksInYearNum_eq` below shows the numerator is 364 or 371), so integer
division is faithful. -/
def weeksInYear (year dow doy : Int) : Int :=
  weeksInYearNum year dow doy / 7

/-- Source `getSetDayOfYear(input)`: day-of-year of a date.  In the
DST-free model the rounded millisecond difference from `new Date(y, 0, 1)`
is the exact day-number difference. -/
def getSetDayOfYear (t : CalDate) : Int :=
  toDays t - jsMakeDay t.year 0 1 + 1

/-- Source `getWeekNumber(mom)` with `dow = firstDayOfWeek` and
`doy = rulesForFirstWeek`; returns `resWeek` (`resYear` is computed by the
source but never returned).  `Math.floor` of the division by 7 is floor
division. -/
def getWeekNumber (mom : CalDate) (dow doy : Int) : Int :=
  let weekOffset := firstWeekOffset mom.year dow doy
  let week := (getSetDayOfYear mom - weekOffset - 1) / 7 + 1
  if week < 1 then
    week + weeksInYear (mom.year - 1) dow doy
  else if weeksInYear mom.year dow doy < week then
    week - weeksInYear mom.year dow doy
  else
    week

theorem isLeapYear_iff (y : Int) :
    isLeapYear y = true ↔ ((y % 4 = 0 ∧ y % 100 ≠ 0) ∨ y % 400 = 0) := by
  simp [isLeapYear]

theorem daysInYear_eq (y : Int) :
    daysInYear y =
      if (y % 4 = 0 ∧ y % 100 ≠ 0) ∨ y % 400 = 0 then 366 else 365 := by
  unfold daysInYear
  by_cases h : (y % 4 = 0 ∧ y % 100 ≠ 0) ∨ y % 400 = 0
  · rw [if_pos ((isLeapYear_iff y).mpr h), if_pos h]
  · rw [if_neg (fun hc => h ((isLeapYear_iff y).mp hc)), if_neg h]

theorem yearStart_succ (y : Int) :
    yearStart (y + 1) = yearStart y + daysInYear y := by
  rw [daysInYear_eq]
  unfold yearStart
  rw [show y + 1 - 1 = y from by ring]
  split_ifs with h <;> omega

theorem jsMakeDay_jan (y d : Int) : jsMakeDay y 0 d = yearStart y + (d - 1) := by
  simp [jsMakeDay, preDays]

theorem daysInYear_cases (y : Int) : daysInYear y = 365 ∨ daysInYear y = 366 := by
  unfold daysInYear
  rcases isLeapYear y <;> simp

theorem firstWeekOffset_bounds (y dow doy : Int)
    (hdow : 0 ≤ dow ∧ dow ≤ 6) (hdoy : doy = 1 ∨ doy = 4) :
    -4 ≤ firstWeekOffset y dow doy ∧ firstWeekOffset y dow doy ≤ 12 := by
  unfold firstWeekOffset jsGetDay
  rcases hdoy with h | h <;> subst h <;> omega

theorem weeksInYearNum_eq (y dow doy : Int)
    (hdow : 0 ≤ dow ∧ dow ≤ 6) (hdoy : doy = 1 ∨ doy = 4) :
    weeksInYearNum y dow doy = 364 ∨ weeksInYearNum y dow doy = 371 := by
  unfold weeksInYearNum firstWeekOffset jsGetDay
  rw [jsMakeDay_jan, jsMakeDay_jan, yearStart_succ]
  have hcases := daysInYear_cases y
  generalize yearStart y = a at *
  rcases hdoy with h | h <;> subst h <;> rcases hcases with h2 | h2 <;> rw [h2] <;> omega

theorem weeksInYear_cases (y dow doy : Int)
    (hdow : 0 ≤ dow ∧ dow ≤ 6) (hdoy : doy = 1 ∨ doy = 4) :
    weeksInYear y dow doy = 52 ∨ weeksInYear y dow doy = 53 := by
  unfold weeksInYear
  rcases weeksInYearNum_eq y dow doy hdow hdoy with h | h <;> rw [h] <;> omega

theorem leapFix_true : leapFix true = 1 := rfl

theorem leapFix_false : leapFix false = 0 := rfl

theorem jsMakeDay_small (y m d : Int) (h0 : 0 ≤ m) (h11 : m ≤ 11) :
    jsMakeDay y m d = yearStart y + preDays (isLeapYear y) m + (d - 1) := by
  unfold jsMakeDay
  rw [show m / 12 = 0 from by omega, show m % 12 = m from by omega, add_zero]

theorem leapFix_cases (b : Bool) : leapFix b = 0 ∨ leapFix b = 1 := by
  cases b <;> simp [leapFix]

theorem daysInYear_leapFix (y : Int) :
    daysInYear y = 365 + leapFix (isLeapYear y) := by
  unfold daysInYear leapFix
  cases isLeapYear y <;> simp

theorem preDays_bounds (L : Bool) (m : Int) (h0 : 0 ≤ m) (h11 : m ≤ 11) :
    0 ≤ preDays L m ∧ preDays L m + monthLength L m ≤ 365 + leapFix L := by
  rcases leapFix_cases L with h | h <;> interval_cases m <;>
    simp [preDays, monthLength, h]

theorem getSetDayOfYear_bounds (t : CalDate) (h : ValidCalDate t) :
    1 ≤ getSetDayOfYear t ∧ getSetDayOfYear t ≤ daysInYear t.year := by
  obtain ⟨h0, h11, hd1, hd2⟩ := h
  have hp := preDays_bounds (isLeapYear t.year) t.month0 h0 h11
  have hdy := daysInYear_leapFix t.year
  unfold getSetDayOfYear toDays
  rw [jsMakeDay_jan, jsMakeDay_small t.year t.month0 t.day h0 h11]
  omega

theorem getWeekNumber_in_range (t : CalDate) (dow doy : Int)
    (hv : ValidCalDate t) (hdow : 0 ≤ dow ∧ dow ≤ 6) (hdoy : doy = 1 ∨ doy = 4) :
    1 ≤ getWeekNumber t dow doy ∧ getWeekNumber t dow doy ≤ 53 := by
  have hd := getSetDayOfYear_bounds t hv
  have hdy := daysInYear_cases t.year
  have ho := firstWeekOffset_bounds t.year dow doy hdow hdoy
  have h1 := weeksInYear_cases (t.year - 1) dow doy hdow hdoy
  have h2 := weeksInYear_cases t.year dow doy hdow hdoy
  simp only [getWeekNumber]
  split_ifs <;> omega

/-- C4: for every well-formed calendar date and every configuration with
`firstDayOfWeek ∈ 0..6` and `rulesForFirstWeek ∈ {1, 4}`, `getWeekNumber`
returns an integer in `[1, 53]`.  (The other half of the claim — that the
result depends only on the date and the two configuration integers — holds
by construction: `getWeekNumber` is a pure function of exactly these three
arguments.) -/
theorem getWeekNumber_range_c4 (t : CalDate) (dow doy : Int)
    (hv : ValidCalDate t) (hdow : 0 ≤ dow ∧ dow ≤ 6) (hdoy : doy = 1 ∨ doy = 4) :
    1 ≤ getWeekNumber t dow doy ∧ getWeekNumber t dow doy ≤ 53 :=
  getWeekNumber_in_range t dow doy hv hdow hdoy

theorem getWeekNumber_range_c4_witness :
    ValidCalDate ⟨2021, 0, 1⟩ ∧
      1 ≤ getWeekNumber ⟨2021, 0, 1⟩ 1 4 ∧ getWeekNumber ⟨2021, 0, 1⟩ 1 4 ≤ 53 :=
  ⟨by decide, getWeekNumber_range_c4 ⟨2021, 0, 1⟩ 1 4 (by decide) (by decide) (by decide)⟩

/-- C5: for every year and every configuration with `firstDayOfWeek ∈ 0..6`
and `rulesForFirstWeek ∈ {1, 4}`, the `weeksInYear` numerator is divisible
by 7 (so the JS division is exact) and the quotient is 52 or 53; and
`daysInYear` uses the proleptic Gregorian leap rule. -/
theorem weeksInYear_52_or_53_c5 (y dow doy : Int)
    (hdow : 0 ≤ dow ∧ dow ≤ 6) (hdoy : doy = 1 ∨ doy = 4) :
    (7 ∣ weeksInYearNum y dow doy) ∧
      (weeksInYear y dow doy = 52 ∨ weeksInYear y dow doy = 53) ∧
      daysInYear y = (if (y % 4 = 0 ∧ y % 100 ≠ 0) ∨ y % 400 = 0 then 366 else 365) := by
  refine ⟨?_, weeksInYear_cases y dow doy hdow hdoy, daysInYear_eq y⟩
  rcases weeksInYearNum_eq y dow doy hdow hdoy with h | h <;> rw [h] <;> decide

theorem weeksInYear_52_or_53_c5_witness :
    (7 ∣ weeksInYearNum 2020 1 4) ∧
      (weeksInYear 2020 1 4 = 52 ∨ weeksInYear 2020 1 4 = 53) ∧
      daysInYear 2020 =
        (if ((2020 : Int) % 4 = 0 ∧ (2020 : Int) % 100 ≠ 0) ∨ (2020 : Int) % 400 = 0
          then 366 else 365) :=
  weeksInYear_52_or_53_c5 2020 1 4 (by decide) (by decide)

/-- C7: with `firstDayOfWeek = 1` (Monday) and `rulesForFirstWeek = 4`
(ISO), `getWeekNumber` on 2021-01-01 returns 53 (the date falls in the last
week of 2020). -/
theorem getWeekNumber_20210101_c7 : getWeekNumber ⟨2021, 0, 1⟩ 1 4 = 53 := by
  decide

/-- An `EventMarker` of the `events` prop: a date plus an optional variant
string (`event.type`). -/
structure EventMarker where
  date : CalDate
  etype : Option String
deriving DecidableEq

/-- Props of the datepicker table row that the selectability policy,
event matching and keyboard navigation read.  A JS prop that may be
`undefined` is an `Option`. -/
structure RowProps where
  minDate : Option CalDate
  maxDate : Option CalDate
  month : Int
  nearbyMonthDays : Bool
  nearbySelectableMonthDays : Bool
  selectableDates : Option (List CalDate)
  unselectableDates : Option (List CalDate)
  unselectableDaysOfWeek : Option (List Int)
  events : Option (List EventMarker)
deriving DecidableEq

/-- Exact calendar-day comparison used throughout the source:
`getDate`, `getFullYear` and `getMonth` all equal. -/
def sameCalendarDay (a b : CalDate) : Bool :=
  a.day == b.day && a.year == b.year && a.month0 == b.month0

/-- The `selectableDates` loop of `selectableDate`: `none` models the early
`return true` on an exact calendar-day match; otherwise every visited
entry pushes a `false` into the validity list. -/
def selLoop (day : CalDate) : List CalDate → Option (List Bool)
  | [] => some []
  | e :: rest =>
    if sameCalendarDay day e then none
    else (selLoop day rest).map (fun v => false :: v)

/-- Source `selectableDate(day)`: build the `validity` list — `day >=
minDate` and `day <= maxDate` when the bounds are set (JS `Date`
comparison, i.e. by time value), current-month check when
`nearbyMonthDays && !nearbySelectableMonthDays`, the `selectableDates`
loop (early `return true` on a match), one non-equality entry per
`unselectableDates` element, one weekday entry per
`unselectableDaysOfWeek` element — and succeed iff no entry is `false`
(`validity.indexOf(false) < 0`). -/
def selectableDate (p : RowProps) (day : CalDate) : Bool :=
  let v1 : List Bool := match p.minDate with
    | some m => [decide (toDays m ≤ toDays day)]
    | none => []
  let v2 : List Bool := match p.maxDate with
    | some m => [decide (toDays day ≤ toDays m)]
    | none => []
  let v3 : List Bool :=
    if p.nearbyMonthDays && !p.nearbySelectableMonthDays then
      [day.month0 == p.month]
    else []
  let v5 : List Bool := match p.unselectableDates with
    | some l => l.map (fun e => day.day != e.day || day.year != e.year || day.month0 != e.month0)
    | none => []
  let v6 : List Bool := match p.unselectableDaysOfWeek with
    | some l => l.map (fun w => getDay day != w)
    | none => []
  match p.selectableDates with
  | some ds =>
    match selLoop day ds with
    | none => true
    | some v4 => (v1 ++ v2 ++ v3 ++ v4 ++ v5 ++ v6).all id
  | none => (v1 ++ v2 ++ v3 ++ v5 ++ v6).all id

/-- Source `eventsDateMatch(day)`: `false` (here `none`) when the `events`
prop is missing or empty or when no event matches; otherwise the list of
events whose date has the same `getDay()` (day of week) as `day`. -/
def eventsDateMatch (p : RowProps) (day : CalDate) : Option (List EventMarker) :=
  match p.events with
  | none => none
  | some es =>
    if es.length = 0 then none
    else
      let dayEvents := es.filter (fun e => getDay e.date == getDay day)
      if dayEvents.length = 0 then none else some dayEvents

theorem selLoop_eq_none_of_match (day : CalDate) (ds : List CalDate)
    (h : ∃ e ∈ ds, sameCalendarDay day e = true) : selLoop day ds = none := by
  induction ds with
  | nil => simp at h
  | cons e rest ih =>
    rcases h with ⟨x, hx, hmatch⟩
    unfold selLoop
    by_cases he : sameCalendarDay day e = true
    · rw [if_pos he]
    · rcases List.mem_cons.mp hx with rfl | hx2
      · exact absurd hmatch he
      · rw [if_neg he, ih ⟨x, hx2, hmatch⟩]
        rfl

theorem selLoop_eq_replicate (day : CalDate) (ds : List CalDate)
    (h : ∀ e ∈ ds, sameCalendarDay day e = false) :
    selLoop day ds = some (List.replicate ds.length false) := by
  induction ds with
  | nil => rfl
  | cons e rest ih =>
    unfold selLoop
    rw [if_neg (by simp [h e (List.mem_cons_self e rest)]),
      ih (fun x hx => h x (List.mem_cons_of_mem e hx))]
    rfl

/-- C1: with a non-empty `selectableDates` allow-list, a date matching some
entry (by calendar day) is selectable no matter what the other constraints
say, and a date matching no entry is unselectable no matter what the other
constraints say (every unmatched entry pushes a negative vote). -/
theorem selectableDate_allowlist_c1 (p : RowProps) (ds : List CalDate)
    (hsel : p.selectableDates = some ds) (hne : ds ≠ []) (d1 d2 : CalDate) :
    ((∃ e ∈ ds, sameCalendarDay d1 e = true) → selectableDate p d1 = true) ∧
      ((∀ e ∈ ds, sameCalendarDay d2 e = false) → selectableDate p d2 = false) := by
  constructor
  · intro hmatch
    simp only [selectableDate, hsel, selLoop_eq_none_of_match d1 ds hmatch]
  · intro hnomatch
    have hrep := selLoop_eq_replicate d2 ds hnomatch
    have hlen : ds.length ≠ 0 := fun hc => hne (List.eq_nil_of_length_eq_zero hc)
    have hmem : false ∈ List.replicate ds.length false :=
      List.mem_replicate.mpr ⟨hlen, rfl⟩
    simp only [selectableDate, hsel, hrep]
    refine Bool.eq_false_iff.mpr (fun hall => ?_)
    have hid := List.all_eq_true.mp hall false (by simp [List.mem_append, hmem])
    simp at hid

theorem selectableDate_allowlist_c1_witness :
    let p : RowProps :=
      { minDate := none, maxDate := none, month := 0,
        nearbyMonthDays := false, nearbySelectableMonthDays := false,
        selectableDates := some [⟨2021, 0, 5⟩],
        unselectableDates := none,
        unselectableDaysOfWeek := some [0, 1, 2, 3, 4, 5, 6],
        events := none }
    selectableDate p ⟨2021, 0, 5⟩ = true ∧ selectableDate p ⟨2021, 0, 6⟩ = false := by
  intro p
  exact ⟨(selectableDate_allowlist_c1 p [⟨2021, 0, 5⟩] rfl (by decide) ⟨2021, 0, 5⟩
      ⟨2021, 0, 6⟩).1 (by decide),
    (selectableDate_allowlist_c1 p [⟨2021, 0, 5⟩] rfl (by decide) ⟨2021, 0, 5⟩
      ⟨2021, 0, 6⟩).2 (by decide)⟩

/-- C6: with a non-empty `events` prop, `eventsDateMatch` returns exactly
the events whose date has the same day of week as the cell's date (and
`false`, modelled `none`, when there are none); so an event is attached to
every cell sharing its weekday, not only to its own calendar date. -/
theorem eventsDateMatch_weekday_c6 (p : RowProps) (es : List EventMarker)
    (hev : p.events = some es) (hne : es ≠ []) (day : CalDate) :
    ((eventsDateMatch p day).getD [] = es.filter (fun e => getDay e.date == getDay day)) ∧
      (∀ ev : EventMarker, ev ∈ (eventsDateMatch p day).getD [] ↔
        ev ∈ es ∧ getDay ev.date = getDay day) := by
  have hlen : es.length ≠ 0 := fun hc => hne (List.eq_nil_of_length_eq_zero hc)
  have hmain : (eventsDateMatch p day).getD [] =
      es.filter (fun e => getDay e.date == getDay day) := by
    simp only [eventsDateMatch, hev]
    rw [if_neg hlen]
    by_cases hf : (es.filter (fun e => getDay e.date == getDay day)).length = 0
    · rw [if_pos hf]
      simp [List.length_eq_zero.mp hf]
    · rw [if_neg hf]
      rfl
  refine ⟨hmain, fun ev => ?_⟩
  rw [hmain]
  simp [List.mem_filter]

theorem eventsDateMatch_weekday_c6_witness :
    let ev : EventMarker := ⟨⟨2021, 0, 5⟩, none⟩
    let p : RowProps :=
      { minDate := none, maxDate := none, month := 0,
        nearbyMonthDays := false, nearbySelectableMonthDays := false,
        selectableDates := none, unselectableDates := none,
        unselectableDaysOfWeek := none, events := some [ev] }
    (eventsDateMatch p ⟨2021, 0, 12⟩).getD [] =
        [ev].filter (fun e => getDay e.date == getDay ⟨2021, 0, 12⟩) ∧
      (∀ e : EventMarker, e ∈ (eventsDateMatch p ⟨2021, 0, 12⟩).getD [] ↔
        e ∈ [ev] ∧ getDay e.date = getDay ⟨2021, 0, 12⟩) := by
  intro ev p
  exact eventsDateMatch_weekday_c6 p [ev] rfl (by decide) ⟨2021, 0, 12⟩

/-- A JS value that `cellClasses` hands to its local `dateMatch` /
`dateWithin` helpers: `undefined`/`null`/`false` (all falsy), a `Date`, or
an array of `Date`s (the `selectedDate` prop may be either). -/
inductive JSVal where
  | falsy
  | date (d : CalDate)
  | arr (l : List CalDate)
deriving DecidableEq

/-- JS array indexing `l[i]`: `undefined` (falsy) when out of range. -/
def jsIdx (l : List CalDate) (i : Nat) : JSVal :=
  match l.get? i with
  | some d => .date d
  | none => .falsy

/-- Local `dateMatch(dateOne, dateTwo, multiple)` of `cellClasses`: `false`
when either argument is falsy or `multiple` is set; calendar-day equality
against a `Date`, or against some element of an array. -/
def dateMatch (d1 : CalDate) (d2 : JSVal) (multiple : Bool) : Bool :=
  if multiple then false
  else match d2 with
    | .falsy => false
    | .date d => sameCalendarDay d1 d
    | .arr l => l.any (fun d => sameCalendarDay d1 d)

/-- Local `dateWithin(dateOne, dates, multiple)` of `cellClasses`: `false`
unless `dates` is an array and `multiple` is unset; then the strict JS
time-value comparison `dateOne > dates[0] && dateOne < dates[1]`
(comparison against a missing element is `false`). -/
def dateWithin (d1 : CalDate) (dates : JSVal) (multiple : Bool) : Bool :=
  match dates with
  | .arr l =>
    if multiple then false
    else
      (match l.get? 0 with
        | some a => decide (toDays a < toDays d1)
        | none => false) &&
      (match l.get? 1 with
        | some b => decide (toDays d1 < toDays b)
        | none => false)
  | _ => false

/-- The `tableCellSelectedClass` condition of `cellClasses`:
`dateMatch(day, selectedDate) || dateWithin(day, selectedDate, multiple)`
(the `dateMatch` call uses the default `multiple = false`). -/
def selectedFlag (sd : JSVal) (multiple : Bool) (day : CalDate) : Bool :=
  dateMatch day sd false || dateWithin day sd multiple

/-- The `tableCellFirstSelectedClass` condition of `cellClasses`:
`dateMatch(day, Array.isArray(selectedDate) && selectedDate[0], multiple)`. -/
def firstSelectedFlag (sd : JSVal) (multiple : Bool) (day : CalDate) : Bool :=
  dateMatch day (match sd with | .arr l => jsIdx l 0 | _ => .falsy) multiple

/-- The `tableCellWithinSelectedClass` condition of `cellClasses`:
`dateWithin(day, selectedDate, multiple)`. -/
def withinSelectedFlag (sd : JSVal) (multiple : Bool) (day : CalDate) : Bool :=
  dateWithin day sd multiple

/-- The `tableCellLastSelectedClass` condition of `cellClasses`:
`dateMatch(day, Array.isArray(selectedDate) && selectedDate[1], multiple)`. -/
def lastSelectedFlag (sd : JSVal) (multiple : Bool) (day : CalDate) : Bool :=
  dateMatch day (match sd with | .arr l => jsIdx l 1 | _ => .falsy) multiple

/-- C8: for a range selection `[start, end]` with `multiple = false`, the
within-selected flag holds iff the day lies strictly (by time value)
between the endpoints; the first/last-selected flags are exact
calendar-day matches against the endpoints (and do hold at the endpoints
themselves, which are never flagged as within); the selected flag holds
iff the day calendar-matches an endpoint or lies strictly within. -/
theorem cellClasses_range_flags_c8 (s e day : CalDate) :
    (withinSelectedFlag (.arr [s, e]) false day =
      (decide (toDays s < toDays day) && decide (toDays day < toDays e))) ∧
    (firstSelectedFlag (.arr [s, e]) false day = sameCalendarDay day s) ∧
    (lastSelectedFlag (.arr [s, e]) false day = sameCalendarDay day e) ∧
    (firstSelectedFlag (.arr [s, e]) false s = true) ∧
    (lastSelectedFlag (.arr [s, e]) false e = true) ∧
    (withinSelectedFlag (.arr [s, e]) false s = false) ∧
    (withinSelectedFlag (.arr [s, e]) false e = false) ∧
    (selectedFlag (.arr [s, e]) false day =
      (sameCalendarDay day s || sameCalendarDay day e ||
        (decide (toDays s < toDays day) && decide (toDays day < toDays e)))) := by
  refine ⟨rfl, rfl, ?_, ?_, ?_, ?_, ?_, ?_⟩
  · simp [lastSelectedFlag, dateMatch, jsIdx]
  · simp [firstSelectedFlag, dateMatch, jsIdx, sameCalendarDay]
  · simp [lastSelectedFlag, dateMatch, jsIdx, sameCalendarDay]
  · simp [withinSelectedFlag, dateWithin]
  · simp [withinSelectedFlag, dateWithin]
  · simp [selectedFlag, dateMatch, dateWithin, jsIdx, Bool.or_assoc]

/-- Loop guard of `changeFocus`:
`(!minDate || nextDay > minDate) && (!maxDate || nextDay < maxDate) &&
!selectableDate(nextDay)`, on the day number held by the mutable
`nextDay`. -/
def changeFocusCond (p : RowProps) (nd : Int) : Bool :=
  (match p.minDate with
    | none => true
    | some m => decide (toDays m < nd)) &&
  (match p.maxDate with
    | none => true
    | some m => decide (nd < toDays m)) &&
  !(selectableDate p (fromDays nd))

/-- The `while` loop of `changeFocus`, with explicit fuel (`none` means the
fuel ran out, i.e. the JS loop is still running after that many
iterations).  Each iteration executes
`nextDay.setDate(day.getDate() + Math.sign(inc))` — note the source reads
`day.getDate()`, the day of month of the original focused date, not of
`nextDay`. -/
def changeFocusLoop (p : RowProps) (day : CalDate) (inc : Int) :
    Nat → Int → Option Int
  | 0, _ => none
  | fuel + 1, nd =>
    if changeFocusCond p nd then
      changeFocusLoop p day inc fuel (jsSetDate nd (day.day + Int.sign inc))
    else some nd

/-- Source `changeFocus(day, inc)`: start from a copy of `day` moved by
`setDate(day.getDate() + inc)`, run the skip loop, and report the final
`nextDay` (emitted as `change-focus`).  `some z` is the reported day
number; `none` means the loop had not finished within the given fuel. -/
def changeFocus (p : RowProps) (day : CalDate) (inc : Int) (fuel : Nat) :
    Option Int :=
  changeFocusLoop p day inc fuel (jsSetDate (toDays day) (day.day + inc))

/-- Row configuration of the C2 scenario: no bounds, March 2021 displayed,
only 2021-03-11 unselectable. -/
def rowC2 : RowProps :=
  { minDate := none, maxDate := none, month := 2,
    nearbyMonthDays := false, nearbySelectableMonthDays := false,
    selectableDates := none,
    unselectableDates := some [⟨2021, 2, 11⟩],
    unselectableDaysOfWeek := none, events := none }

/-- Row configuration of the C3 scenario: `maxDate` 2021-03-20, every
weekday unselectable (so no selectable date remains before the bound). -/
def rowC3 : RowProps :=
  { minDate := none, maxDate := some ⟨2021, 2, 20⟩, month := 2,
    nearbyMonthDays := false, nearbySelectableMonthDays := false,
    selectableDates := none, unselectableDates := none,
    unselectableDaysOfWeek := some [0, 1, 2, 3, 4, 5, 6], events := none }

theorem changeFocusLoop_fixpoint (p : RowProps) (day : CalDate) (inc : Int)
    (z : Int) (hcond : changeFocusCond p z = true)
    (hfix : jsSetDate z (day.day + Int.sign inc) = z) :
    ∀ fuel : Nat, changeFocusLoop p day inc fuel z = none := by
  intro fuel
  induction fuel with
  | zero => rfl
  | succ n ih =>
    unfold changeFocusLoop
    rw [if_pos hcond, hfix]
    exact ih

/-- C2: the claim says that from focused date 2021-03-10 with `ArrowRight`
(`inc = 1`), 2021-03-11 unselectable and 2021-03-12 selectable, the focus
target reported by `changeFocus` is 2021-03-12.  The code instead never
reports anything: the loop body `nextDay.setDate(day.getDate() +
Math.sign(inc))` re-derives the day of month from the original `day`, so
`nextDay` stays 2021-03-11 forever and the `while` loop never exits —
witnessed here by the fuelled loop returning `none` for every fuel. -/
theorem changeFocus_c2_never_terminates :
    (selectableDate rowC2 ⟨2021, 2, 11⟩ = false) ∧
      (selectableDate rowC2 ⟨2021, 2, 12⟩ = true) ∧
      ∀ fuel : Nat, changeFocus rowC2 ⟨2021, 2, 10⟩ 1 fuel = none := by
  refine ⟨by decide, by decide, fun fuel => ?_⟩
  have hinit : jsSetDate (toDays ⟨2021, 2, 10⟩) ((10 : Int) + 1) = 18697 := by decide
  have hfix : jsSetDate 18697 ((10 : Int) + Int.sign 1) = 18697 := by decide
  have hcond : changeFocusCond rowC2 18697 = true := by decide
  unfold changeFocus
  rw [show (⟨2021, 2, 10⟩ : CalDate).day = (10 : Int) from rfl, hinit]
  exact changeFocusLoop_fixpoint rowC2 ⟨2021, 2, 10⟩ 1 18697 hcond hfix fuel

/-- C3: the claim says `changeFocus` always terminates, in particular that
stepping forward past a focused date with no selectable date before
`maxDate` exits once the candidate crosses the bound.  With focused date
2021-03-10, `inc = 1`, `maxDate` 2021-03-20 and every weekday
unselectable, the candidate 2021-03-11 is inside the bound and
unselectable, and the loop body re-sets it to 2021-03-11 forever (it reads
`day.getDate()`, not `nextDay.getDate()`), so the candidate never crosses
the bound and the loop never exits. -/
theorem changeFocus_c3_never_terminates :
    ∀ fuel : Nat, changeFocus rowC3 ⟨2021, 2, 10⟩ 1 fuel = none := by
  intro fuel
  have hinit : jsSetDate (toDays ⟨2021, 2, 10⟩) ((10 : Int) + 1) = 18697 := by decide
  have hfix : jsSetDate 18697 ((10 : Int) + Int.sign 1) = 18697 := by decide
  have hcond : changeFocusCond rowC3 18697 = true := by decide
  unfold changeFocus
  rw [show (⟨2021, 2, 10⟩ : CalDate).day = (10 : Int) from rfl, hinit]
  exact changeFocusLoop_fixpoint rowC3 ⟨2021, 2, 10⟩ 1 18697 hcond hfix fuel

/-! Datetimepicker (`Datetimepicker.vue`).  A datetime value is its time
value in seconds since the epoch (`Int`), in the DST-free local model. -/

/-- Day number (`Day(t)`) of a datetime value. -/
def dtDayNumber (v : Int) : Int := v / 86400

/-- JS `getHours()` of a datetime value. -/
def dtGetHours (v : Int) : Int := (v / 3600) % 24

/-- JS `getMinutes()` of a datetime value. -/
def dtGetMinutes (v : Int) : Int := (v / 60) % 60

/-- JS `getSeconds()` of a datetime value. -/
def dtGetSeconds (v : Int) : Int := v % 60

/-- Calendar fields (`getFullYear`/`getMonth`/`getDate`) of a datetime
value. -/
def dtCalDate (v : Int) : CalDate := fromDays (dtDayNumber v)

/-- JS `setHours(h, m, s, 0)` on a datetime value: keep the calendar day,
replace the time of day. -/
def dtSetHours (v h m s : Int) : Int :=
  86400 * dtDayNumber v + 3600 * h + 60 * m + s

/-- Clamping step of the `computedValue` setter:
`if (minDatetime && val < minDatetime) val = minDatetime
else if (maxDatetime && val > maxDatetime) val = maxDatetime`. -/
def clampDT (mn mx : Option Int) (val : Int) : Int :=
  match mn with
  | some m =>
    if val < m then m
    else match mx with
      | some M => if M < val then M else val
      | none => val
  | none =>
    match mx with
    | some M => if M < val then M else val
    | none => val

/-- Time-restoring step of the `computedValue` setter: with a current
`newValue`, a fresh value whose calendar day changed and whose time of day
is midnight gets the current time of day copied over
(`val.setHours(newValue.getHours(), ..., 0)`); with no current value the
incoming value goes through the `datetimeCreator` prop `cr` (default:
identity). -/
def restoreTime (cur : Option Int) (cr : Int → Int) (v : Int) : Int :=
  match cur with
  | some c =>
    if !(sameCalendarDay (dtCalDate v) (dtCalDate c)) &&
        (dtGetHours v == 0) && (dtGetMinutes v == 0) && (dtGetSeconds v == 0)
    then dtSetHours v (dtGetHours c) (dtGetMinutes c) (dtGetSeconds c)
    else v
  | none => cr v

/-- The `computedValue` setter of the datetimepicker.  `cur` is the current
`newValue`, `cr` the `datetimeCreator` prop; the result is the stored
`newValue`, which is also the payload of the emitted `input` event.  A
falsy `value` is stored unchanged (`none` branch); a `Date` is copied,
time-restored, and finally clamped to `[minDatetime, maxDatetime]`. -/
def setComputedValue (cur mn mx : Option Int) (cr : Int → Int)
    (value : Option Int) : Option Int :=
  match value with
  | none => none
  | some v => some (clampDT mn mx (restoreTime cur cr v))

theorem clampDT_min_le (a : Int) (mx : Option Int) (val : Int)
    (h : ∀ b, mx = some b → a ≤ b) : a ≤ clampDT (some a) mx val := by
  rcases mx with _ | b
  · simp only [clampDT]
    split_ifs <;> omega
  · have := h b rfl
    simp only [clampDT]
    split_ifs <;> omega

theorem clampDT_le_max (mn : Option Int) (b : Int) (val : Int)
    (h : ∀ a, mn = some a → a ≤ b) : clampDT mn (some b) val ≤ b := by
  rcases mn with _ | a
  · simp only [clampDT]
    split_ifs <;> omega
  · have := h a rfl
    simp only [clampDT]
    split_ifs <;> omega

/-- C10: whenever a non-null datetime is assigned through the
`computedValue` setter (with consistent bounds when both are set), the
stored and emitted value is clamped into `[minDatetime, maxDatetime]`: it
is at least `minDatetime` when that is set and at most `maxDatetime` when
that is set. -/
theorem setComputedValue_clamped_c10 (cur mn mx : Option Int)
    (cr : Int → Int) (v : Int)
    (hminmax : ∀ a b, mn = some a → mx = some b → a ≤ b) :
    ∃ w : Int, setComputedValue cur mn mx cr (some v) = some w ∧
      (∀ a, mn = some a → a ≤ w) ∧ (∀ b, mx = some b → w ≤ b) := by
  refine ⟨clampDT mn mx (restoreTime cur cr v), rfl, fun a ha => ?_, fun b hb => ?_⟩
  · subst ha
    exact clampDT_min_le a mx _ (fun b hb => hminmax a b rfl hb)
  · subst hb
    exact clampDT_le_max mn b _ (fun a ha => hminmax a b ha rfl)

theorem setComputedValue_clamped_c10_witness :
    ∃ w : Int, setComputedValue none (some 100) (some 200) id (some 50) = some w ∧
      (∀ a, (some 100 : Option Int) = some a → a ≤ w) ∧
      (∀ b, (some 200 : Option Int) = some b → w ≤ b) :=
  setComputedValue_clamped_c10 none (some 100) (some 200) id 50
    (fun a b ha hb => by
      rw [Option.some_inj.mp ha.symm, Option.some_inj.mp hb.symm]
      omega)

/-- Splitting helper modelling JS `String.prototype.split(/\D/)` on a
string given as its character list: cut at every non-digit character,
keeping empty pieces (`"1--2"` gives `["1", "", "2"]`, as in JS). -/
def splitNonDigitAux : List Char → List Char → List (List Char)
  | [], acc => [acc.reverse]
  | c :: rest, acc =>
    if c.isDigit then splitNonDigitAux rest (c :: acc)
    else acc.reverse :: splitNonDigitAux rest []

/-- JS `value.split(/\D/)`. -/
def splitNonDigit (l : List Char) : List (List Char) := splitNonDigitAux l []

/-- Token list of `onChangeNativePicker`: `date ? date.split(/\D/) : []`
(the only falsy string is the empty one). -/
def jsNativeTokens (value : List Char) : List (List Char) :=
  if value = [] then [] else splitNonDigit value

/-- JS `parseInt(token, 10)` on a token produced by the non-digit split:
such a token consists of digits only, so the result is its decimal value,
and `NaN` (`none`) exactly on the empty token. -/
def parseDigits : List Char → Option Nat
  | [] => none
  | l => some (l.foldl (fun n c => 10 * n + (c.toNat - 48)) 0)

/-- ECMAScript `MakeDate`/`MakeTime` for `new Date(y, mo, d, hh, mi)`, in
seconds. -/
def mkJsDateTime (y mo d hh mi : Int) : Int :=
  86400 * jsMakeDay y mo d + 3600 * hh + 60 * mi

/-- A JS `Date` object that may be an Invalid Date: `parseInt` yields `NaN`
on an empty token, and any `NaN` argument makes `new Date(...)` invalid. -/
inductive JsDateVal where
  | invalid
  | valid (t : Int)
deriving DecidableEq

/-- The `new Date(year, month - 1, day, hours, minutes)` construction of
`onChangeNativePicker`, from the five `parseInt` results (`none` = `NaN`,
which makes the constructed `Date` invalid). -/
def jsNewDate5 (y mo d hh mi : Option Nat) : JsDateVal :=
  match y, mo, d, hh, mi with
  | some y, some mo, some d, some hh, some mi =>
    .valid (mkJsDateTime (y : Int) ((mo : Int) - 1) (d : Int) (hh : Int) (mi : Int))
  | _, _, _, _, _ => .invalid

/-- Source `onChangeNativePicker(event)`: split the input value on
non-digits; with at least 5 tokens assign
`new Date(year, month - 1, day, hours, minutes)` to `computedValue`,
otherwise assign `null` (`none`). -/
def onChangeNativePicker (value : List Char) : Option JsDateVal :=
  let s := jsNativeTokens value
  if 5 ≤ s.length then
    some (jsNewDate5
      ((s.get? 0).bind parseDigits)
      ((s.get? 1).bind parseDigits)
      ((s.get? 2).bind parseDigits)
      ((s.get? 3).bind parseDigits)
      ((s.get? 4).bind parseDigits))
  else none

/-- C9: an input whose split yields fewer than 5 tokens makes
`onChangeNativePicker` assign `null` to the selection (no exception — the
function is total); with 5 or more tokens it assigns the `Date` built from
the first five tokens as year, month (1-based in the input), day, hours
and minutes.  The concrete cases evaluate the construction on a
well-formed native value (2021-03-14T10:30, whose epoch-second value is
1615717800) and on a date-only value (3 tokens, `null`). -/
theorem onChangeNativePicker_c9 :
    (∀ value : List Char, (jsNativeTokens value).length < 5 →
        onChangeNativePicker value = none) ∧
    (∀ (value : List Char) (t0 t1 t2 t3 t4 : List Char)
        (rest : List (List Char)),
        jsNativeTokens value = t0 :: t1 :: t2 :: t3 :: t4 :: rest →
        onChangeNativePicker value =
          some (jsNewDate5 (parseDigits t0) (parseDigits t1) (parseDigits t2)
            (parseDigits t3) (parseDigits t4))) ∧
    onChangeNativePicker "2021-03-14T10:30".toList =
      some (.valid 1615717800) ∧
    onChangeNativePicker "2021-03-14".toList = none := by
  refine ⟨?_, ?_, by decide, by decide⟩
  · intro value h
    simp only [onChangeNativePicker]
    rw [if_neg (by omega)]
  · intro value t0 t1 t2 t3 t4 rest h
    simp only [onChangeNativePicker, h]
    rw [if_pos (by simp)]
    simp

theorem onChangeNativePicker_c9_witness :
    onChangeNativePicker "10:30".toList = none ∧
      onChangeNativePicker "1-2-3-4-5".toList =
        some (jsNewDate5 (parseDigits ['1']) (parseDigits ['2'])
          (parseDigits ['3']) (parseDigits ['4']) (parseDigits ['5'])) :=
  ⟨onChangeNativePicker_c9.1 "10:30".toList (by decide),
    onChangeNativePicker_c9.2.1 "1-2-3-4-5".toList
      ['1'] ['2'] ['3'] ['4'] ['5'] [] (by decide)⟩

end Oruga
